import Mathlib

/-!
Shallow embedding of the workflow execution engine of this repository
(app/services/workflow_executor.py and app/services/action_registry.py).

Python dynamic (JSON-like) values are embedded as the inductive `Value`:
Python `int` as `Value.int : Int`, Python `float` idealised as exact
rationals (`Value.float : Rat`), strings, booleans, `None`, lists and
string-keyed dicts (all dicts reachable in the engine are JSON objects,
hence string keys, in insertion order).

Exceptions raised by Python code are embedded as `Except String`
(the string is the exception message; messages of built-in Python
exceptions such as TypeError are modelled, while messages built by the
engine itself are reproduced exactly).  Mutation of the executor instance
state (`self.context`, `self.execution_log`, `execution.current_node_id`)
is embedded as explicit state passing of `St`; a raised exception carries
the state accumulated so far, matching the fact that in the source the
mutations of instance attributes survive the raise.

The recursion-depth limit of the Python runtime is embedded as a fuel
parameter: exhausted fuel is a raised RecursionError (an ordinary
`Exception`, caught by `execute`).
-/

/-- JSON-like dynamic value, as handled by the engine. -/
inductive Value where
  | null : Value
  | bool : Bool → Value
  | int : Int → Value
  | float : Rat → Value
  | str : String → Value
  | list : List Value → Value
  | obj : List (String × Value) → Value
deriving Repr

/-- Left brace character (written once, reused to build placeholder text). -/
def lb : Char := '{'

/-- Right brace character. -/
def rb : Char := '}'

/-- Lookup in a Python dict embedded as an insertion-ordered assoc list
(dict.get: first, and only, binding of the key). -/
def lookupV (k : String) : List (String × Value) → Option Value
  | [] => none
  | (k', v) :: rest => if k' == k then some v else lookupV k rest

/-- Python dict assignment d[k] = v: update in place if the key exists
(keeping its position), otherwise append. -/
def dictSet : List (String × Value) → String → Value → List (String × Value)
  | [], k, v => [(k, v)]
  | (k', v') :: rest, k, v =>
    if k' == k then (k', v) :: rest else (k', v') :: dictSet rest k v

/-- Python str.startswith on character lists. -/
def hasLead : List Char → List Char → Bool
  | [], _ => true
  | _ :: _, [] => false
  | a :: as, b :: bs => a == b && hasLead as bs

/-- Python str.endswith on character lists. -/
def hasEnd (p s : List Char) : Bool := hasLead p.reverse s.reverse

/-- Python substring test (the `in` operator) on character lists. -/
def hasOccur (p : List Char) : List Char → Bool
  | [] => hasLead p []
  | c :: rest => hasLead p (c :: rest) || hasOccur p rest

/-- Python str.replace(old, new) (all non-overlapping occurrences, left to
right), written with a skip counter so that the recursion is structural on
the scanned list: after a match at the head, the `old.length - 1`
remaining matched characters are consumed with the counter.  Every call
in the engine has a non-empty `old` of the shape "\x7b\x7bkey\x7d\x7d",
so the empty-pattern corner of Python str.replace is never exercised. -/
def replaceGo (old new : List Char) : Nat → List Char → List Char
  | _, [] => []
  | skip + 1, _ :: rest => replaceGo old new skip rest
  | 0, c :: rest =>
    if hasLead old (c :: rest) then new ++ replaceGo old new (old.length - 1) rest
    else c :: replaceGo old new 0 rest

/-- Python str.replace on strings. -/
def pyReplace (s old new : String) : String :=
  String.mk (replaceGo old.data new.data 0 s.data)

/-- Python truthiness of a value (used on the condition result). -/
def pyTruthy : Value → Bool
  | .null => false
  | .bool b => b
  | .int n => n != 0
  | .float q => q != 0
  | .str s => s != ""
  | .list xs => !xs.isEmpty
  | .obj kvs => !kvs.isEmpty

/-- Numeric view of a Python value for cross-type equality
(True == 1 == 1.0 in Python). -/
def numView : Value → Option Rat
  | .bool b => some (if b then 1 else 0)
  | .int n => some (n : Rat)
  | .float q => some q
  | _ => none

mutual

/-- Python == on embedded values.  Dict equality is order-insensitive, as
in Python; numeric equality crosses bool, int and float, as in Python
(True == 1 == 1.0). -/
def pyEq : Value → Value → Bool
  | .null, .null => true
  | .str a, .str b => a == b
  | .list xs, .list ys => xs.length == ys.length && pyEqList xs ys
  | .obj xs, .obj ys => xs.length == ys.length && pyEqObj xs ys
  | a, b =>
    match numView a, numView b with
    | some x, some y => x == y
    | _, _ => false

/-- Pointwise Python == on lists already known to have equal length. -/
def pyEqList : List Value → List Value → Bool
  | [], _ => true
  | _ :: _, [] => false
  | v :: rest, w :: ws => pyEq v w && pyEqList rest ws

/-- Python dict == core: every binding of the left dict matches the right
dict by key (the wrapper adds the length check, which, for dicts without
duplicate keys, makes this symmetric as in Python). -/
def pyEqObj : List (String × Value) → List (String × Value) → Bool
  | [], _ => true
  | (k, v) :: rest, ys =>
    (match lookupV k ys with
     | some v' => pyEq v v'
     | none => false) && pyEqObj rest ys

end

mutual

/-- Python str() of an embedded value.  Container rendering and float
rendering are modelled (Python renders list and dict elements with repr
and floats with the shortest round-tripping decimal; the engine only ever
feeds the rendered text into other strings and never re-parses it, so the
exact rendering of containers and floats is irrelevant to the claims). -/
def pyStr : Value → String
  | .null => "None"
  | .bool b => if b then "True" else "False"
  | .int n => toString n
  | .float q => toString q.num ++ "/" ++ toString q.den
  | .str s => s
  | .list xs => "[" ++ pyStrList xs ++ "]"
  | .obj kvs => String.mk [lb] ++ pyStrObj kvs ++ String.mk [rb]

/-- Comma-separated rendering of list elements. -/
def pyStrList : List Value → String
  | [] => ""
  | [v] => pyStr v
  | v :: rest => pyStr v ++ ", " ++ pyStrList rest

/-- Comma-separated rendering of dict bindings. -/
def pyStrObj : List (String × Value) → String
  | [] => ""
  | [(k, v)] => k ++ ": " ++ pyStr v
  | (k, v) :: rest => k ++ ": " ++ pyStr v ++ ", " ++ pyStrObj rest

end

/-- Python type name of a value (used in modelled exception messages). -/
def pyTypeName : Value → String
  | .null => "NoneType"
  | .bool _ => "bool"
  | .int _ => "int"
  | .float _ => "float"
  | .str _ => "str"
  | .list _ => "list"
  | .obj _ => "dict"

/-- Numeric value of a digit run. -/
def digitsVal (ds : List Char) : Nat :=
  ds.foldl (fun a c => a * 10 + (c.toNat - 48)) 0

/-- Python float() of a string, idealised over exact rationals: optional
surrounding spaces, optional sign, decimal digits with optional fraction
and optional exponent.  The inf and nan spellings and digit underscores
accepted by Python have no rational counterpart and are outside the
idealisation. -/
def parseFloatChars (cs0 : List Char) : Option Rat :=
  let cs := (((cs0.dropWhile (fun c => c == ' ')).reverse.dropWhile
    (fun c => c == ' ')).reverse)
  let sgncs : Rat × List Char :=
    match cs with
    | '-' :: rest => (-1, rest)
    | '+' :: rest => (1, rest)
    | _ => (1, cs)
  let sgn := sgncs.1
  let ip := sgncs.2.takeWhile Char.isDigit
  let cs1 := sgncs.2.dropWhile Char.isDigit
  let fpcs : List Char × List Char :=
    match cs1 with
    | '.' :: rest => (rest.takeWhile Char.isDigit, rest.dropWhile Char.isDigit)
    | _ => ([], cs1)
  let fp := fpcs.1
  if ip.isEmpty && fp.isEmpty then none
  else
    let mant : Rat := (digitsVal ip : Rat) + (digitsVal fp : Rat) / ((10 : Rat) ^ fp.length)
    match fpcs.2 with
    | [] => some (sgn * mant)
    | e :: rest =>
      if e == 'e' || e == 'E' then
        let esr : Bool × List Char :=
          match rest with
          | '-' :: r => (true, r)
          | '+' :: r => (false, r)
          | _ => (false, rest)
        let ed := esr.2.takeWhile Char.isDigit
        let rest2 := esr.2.dropWhile Char.isDigit
        if ed.isEmpty || !rest2.isEmpty then none
        else
          let ev : Rat := (10 : Rat) ^ digitsVal ed
          some (sgn * (if esr.1 then mant / ev else mant * ev))
      else none

/-- Python float() coercion of a value (floats idealised as rationals). -/
def pyFloat : Value → Except String Rat
  | .bool b => .ok (if b then 1 else 0)
  | .int n => .ok (n : Rat)
  | .float q => .ok q
  | .str s =>
    match parseFloatChars s.data with
    | some q => .ok q
    | none => .error ("ValueError: could not convert string to float: " ++ s)
  | v => .error ("TypeError: float() argument must be a string or a real number, not " ++
      pyTypeName v)

/-- Placeholder pattern for a variable key, as character list:
"\x7b\x7b" ++ k ++ "\x7d\x7d" (built by the f-string in the source). -/
def patOf (k : String) : List Char := lb :: lb :: k.data ++ [rb, rb]

/-- Placeholder pattern for a variable key, as a string. -/
def patStr (k : String) : String := String.mk (patOf k)

/-- Placeholder interpolation loop shared by data.log, data.transform and
the source of every string substitution in the engine: for each variable
in insertion order, replace its placeholder by str(value). -/
def substString (vars : List (String × Value)) (s : String) : String :=
  vars.foldl (fun acc kv => pyReplace acc (patStr kv.1) (pyStr kv.2)) s

/-- Operand resolution of logic.condition: a string operand that starts
with "\x7b\x7b" and ends with "\x7d\x7d" is looked up (by its interior
s[2:-2]) in the variables, falling back to the literal string; any other
value passes through. -/
def resolveOperand (vars : List (String × Value)) (v : Value) : Value :=
  match v with
  | .str s =>
    if hasLead [lb, lb] s.data && hasEnd [rb, rb] s.data then
      let mid := s.data.drop 2
      let name := String.mk (mid.take (mid.length - 2))
      match lookupV name vars with
      | some x => x
      | none => .str s
    else .str s
  | v => v

/-- Handler of data.log (_action_log): interpolates placeholders into the
message and returns logged true together with the interpolated message
under the extra key _log.  A non-string message raises AttributeError at
the first replace call, hence only when at least one variable exists. -/
def actionLog (vars : List (String × Value)) (config : List (String × Value)) :
    Except String Value :=
  match (lookupV "message" config).getD (.str "") with
  | .str s => .ok (.obj [("logged", .bool true), ("_log", .str (substString vars s))])
  | v =>
    if vars.isEmpty then .ok (.obj [("logged", .bool true), ("_log", v)])
    else .error ("AttributeError: " ++ pyTypeName v ++ " object has no attribute replace")

/-- Handler of data.set_variable (_action_set_variable): writes
config.value under config.name into the variables and returns success.
An unhashable name (list or dict) raises TypeError, as in Python; a
hashable non-string name (None, bool, number) is collapsed to its
rendered form here — Python keeps the native key, which is observable
only through configs no claim touches, since the engine reads variable
names back only as strings. -/
def actionSetVariable (vars : List (String × Value)) (config : List (String × Value)) :
    Except String (List (String × Value) × Value) :=
  let value := (lookupV "value" config).getD .null
  match (lookupV "name" config).getD .null with
  | .list _ => .error "TypeError: unhashable type: list"
  | .obj _ => .error "TypeError: unhashable type: dict"
  | .str s => .ok (dictSet vars s value, .obj [("success", .bool true)])
  | v => .ok (dictSet vars (pyStr v) value, .obj [("success", .bool true)])

mutual

/-- Recursive placeholder substitution of data.transform (replace_vars in
the source): strings are interpolated, dicts and lists are mapped over,
every other value passes through. -/
def replaceVars (vars : List (String × Value)) : Value → Value
  | .str s => .str (substString vars s)
  | .obj kvs => .obj (replaceVarsObj vars kvs)
  | .list xs => .list (replaceVarsList vars xs)
  | v => v

/-- Substitution mapped over list elements. -/
def replaceVarsList (vars : List (String × Value)) : List Value → List Value
  | [] => []
  | v :: rest => replaceVars vars v :: replaceVarsList vars rest

/-- Substitution mapped over dict values. -/
def replaceVarsObj (vars : List (String × Value)) :
    List (String × Value) → List (String × Value)
  | [] => []
  | (k, v) :: rest => (k, replaceVars vars v) :: replaceVarsObj vars rest

end

/-- Handler of data.transform (_action_transform): deep-copies the
template (the json round-trip is the identity on the immutable
embedding) and substitutes placeholders recursively. -/
def actionTransform (vars : List (String × Value)) (config : List (String × Value)) :
    Except String Value :=
  let template := (lookupV "template" config).getD (.obj [])
  .ok (.obj [("result", replaceVars vars template)])

/-- Handler of email.send (_action_send_email): simulated send; the
message id embeds id(config), a memory address, modelled by the address
oracle value passed in by the dispatcher. -/
def actionSendEmail (addr : Nat) : Except String Value :=
  .ok (.obj [("sent", .bool true), ("message_id", .str ("msg_" ++ toString addr))])

/-- Handler of notification.push (_action_push_notification). -/
def actionPushNotification : Except String Value :=
  .ok (.obj [("sent", .bool true)])

/-- Handler of logic.condition (_action_condition): resolves the two
operands, then dispatches on the operator; an unmatched or non-string
operator leaves the initial False result. -/
def actionCondition (vars : List (String × Value)) (config : List (String × Value)) :
    Except String Value :=
  let left := resolveOperand vars ((lookupV "left" config).getD .null)
  let right := resolveOperand vars ((lookupV "right" config).getD .null)
  match (lookupV "operator" config).getD (.str "==") with
  | .str op =>
    if op == "==" then .ok (.obj [("result", .bool (pyEq left right))])
    else if op == "!=" then .ok (.obj [("result", .bool (!pyEq left right))])
    else if op == ">" then
      match pyFloat left with
      | .error e => .error e
      | .ok a => match pyFloat right with
        | .error e => .error e
        | .ok b => .ok (.obj [("result", .bool (decide (a > b)))])
    else if op == "<" then
      match pyFloat left with
      | .error e => .error e
      | .ok a => match pyFloat right with
        | .error e => .error e
        | .ok b => .ok (.obj [("result", .bool (decide (a < b)))])
    else if op == ">=" then
      match pyFloat left with
      | .error e => .error e
      | .ok a => match pyFloat right with
        | .error e => .error e
        | .ok b => .ok (.obj [("result", .bool (decide (a ≥ b)))])
    else if op == "<=" then
      match pyFloat left with
      | .error e => .error e
      | .ok a => match pyFloat right with
        | .error e => .error e
        | .ok b => .ok (.obj [("result", .bool (decide (a ≤ b)))])
    else if op == "contains" then
      .ok (.obj [("result", .bool (hasOccur (pyStr right).data (pyStr left).data))])
    else .ok (.obj [("result", .bool false)])
  | _ => .ok (.obj [("result", .bool false)])

/-- Handler of logic.delay (_action_delay): the suspension itself is
unobservable in the embedding; a non-numeric seconds value raises
TypeError inside asyncio.sleep. -/
def actionDelay (config : List (String × Value)) : Except String Value :=
  match (lookupV "seconds" config).getD (.int 1) with
  | .int _ => .ok (.obj [("waited", .bool true)])
  | .float _ => .ok (.obj [("waited", .bool true)])
  | .bool _ => .ok (.obj [("waited", .bool true)])
  | v => .error ("TypeError: " ++ pyTypeName v ++
      " object cannot be interpreted as a number of seconds")

/-- Method computation of http.request: config.get with default "GET",
then .upper() — the upper call sits before the try block in the source,
so a non-string method value raises AttributeError out of the handler. -/
def methodUpper (v : Option Value) : Except String String :=
  match v with
  | none => .ok ("GET".toUpper)
  | some (.str s) => .ok s.toUpper
  | some v => .error ("AttributeError: " ++ pyTypeName v ++ " object has no attribute upper")

/-- Outcome of the outbound call of http.request: everything inside the
try block (session, request, response.json) is an external collaborator,
embedded as a transport oracle; an error is any exception raised inside
the try block. -/
abbrev Transport := String → Value → Value → Value → Except String (Int × Value)

/-- Handler of http.request (_action_http_request): computes the method
outside the try block, then converts any transport exception into a
structured status-0 result. -/
def actionHttpRequest (transport : Transport) (config : List (String × Value)) :
    Except String Value :=
  let url := (lookupV "url" config).getD .null
  match methodUpper (lookupV "method" config) with
  | .error e => .error e
  | .ok m =>
    let headers := (lookupV "headers" config).getD (.obj [])
    let body := (lookupV "body" config).getD .null
    match transport m url headers body with
    | .ok sd => .ok (.obj [("status", .int sd.1), ("data", sd.2)])
    | .error e => .ok (.obj [("status", .int 0), ("data", .null), ("error", .str e)])

/-- Built-in actions registered by _register_builtin_actions, keyed by
their ids.  Every registered definition carries a handler, so the
`action and action.handler` truthiness test of the interpreter reduces to
presence in the registry. -/
inductive Builtin where
  | logMessage
  | setVariable
  | transform
  | sendEmail
  | pushNotification
  | condition
  | delay
  | httpRequest
deriving DecidableEq

/-- Registry lookup (ActionRegistry.get): the action id of a node is read
with dict.get, so a missing id is None and matches no catalog key. -/
def registryGet : Option String → Option Builtin
  | some "data.log" => some .logMessage
  | some "data.set_variable" => some .setVariable
  | some "data.transform" => some .transform
  | some "email.send" => some .sendEmail
  | some "notification.push" => some .pushNotification
  | some "logic.condition" => some .condition
  | some "logic.delay" => some .delay
  | some "http.request" => some .httpRequest
  | _ => none

/-- Nondeterministic inputs of one run: the id() memory addresses handed
out by the interpreter (consumed in call order by email.send) and the
outcome of outbound HTTP calls. -/
structure Oracles where
  idAddr : Nat → Nat
  transport : Transport

/-- A workflow node, as parsed from nodes_json: id, type, data.actionId
and data.config, each possibly missing. -/
structure Node where
  id : Option String
  type : Option String
  actionId : Option String
  config : List (String × Value)

/-- A workflow edge, as parsed from edges_json. -/
structure EdgeRec where
  source : Option String
  target : Option String
  sourceHandle : Option String
  targetHandle : Option String

/-- Adjacency value built by _build_adjacency: the target, sourceHandle
and targetHandle fields of one edge. -/
structure EdgeInfo where
  target : Option String
  sourceHandle : Option String
  targetHandle : Option String

/-- Adjacency list: edge groups keyed by source id, groups in first-seen
order, edges within a group in edge-list order, as the dict in
_build_adjacency produces. -/
abbrev Adj := List (Option String × List EdgeInfo)

/-- Append an edge to the group of its source, creating the group at the
end if absent (dict insertion-order semantics). -/
def adjInsert (adj : Adj) (src : Option String) (e : EdgeInfo) : Adj :=
  match adj with
  | [] => [(src, [e])]
  | (k, es) :: rest =>
    if k == src then (k, es ++ [e]) :: rest
    else (k, es) :: adjInsert rest src e

/-- _build_adjacency: group the edges by source. -/
def buildAdjacency (edges : List EdgeRec) : Adj :=
  edges.foldl (fun adj e =>
    adjInsert adj e.source ⟨e.target, e.sourceHandle, e.targetHandle⟩) []

/-- adjacency.get(node_id, []): edges leaving the node. -/
def adjGet (adj : Adj) (k : Option String) : List EdgeInfo :=
  match adj with
  | [] => []
  | (k', es) :: rest => if k' == k then es else adjGet rest k

/-- _get_node_by_id: first node whose id equals the given id (an edge
target that matches no node yields none). -/
def getNodeById (nodeId : Option String) (nodes : List Node) : Option Node :=
  nodes.find? (fun n => n.id == nodeId)

/-- _find_trigger_node: first node of type trigger, in list order. -/
def findTrigger (nodes : List Node) : Option Node :=
  nodes.find? (fun n => n.type == some "trigger")

/-- One entry of the execution log; the wall-clock timestamp recorded by
_log_step is not part of the embedding (the claims compare logs with
timestamps set aside). -/
structure LogEntry where
  event : String
  data : Value

/-- Mutable interpreter state threaded through one run: the variables of
the context, the execution log, the current-node pointer persisted on the
execution row, and the count of id() addresses consumed so far. -/
structure St where
  vars : List (String × Value)
  log : List LogEntry
  currentNodeId : Option String
  idCalls : Nat

/-- _log_step: append an event to the execution log. -/
def logStep (st : St) (event : String) (data : Value) : St :=
  { st with log := st.log ++ [⟨event, data⟩] }

/-- Embedding of a possibly-missing string field as a JSON value. -/
def optV : Option String → Value
  | none => .null
  | some s => .str s

/-- Python str() of a possibly-missing string (f-string interpolation of
a value that may be None). -/
def optStr : Option String → String
  | none => "None"
  | some s => s

/-- Dispatch to a built-in handler (the `await action.handler(self.context,
config)` call): returns the successor state and the raw result, or the
state at the raise together with the exception.  Only data.set_variable
mutates the variables; email.send consumes one id() address. -/
def runHandler (o : Oracles) (b : Builtin) (st : St) (config : List (String × Value)) :
    St × Except String Value :=
  match b with
  | .logMessage => (st, actionLog st.vars config)
  | .setVariable =>
    match actionSetVariable st.vars config with
    | .ok vr => ({ st with vars := vr.1 }, .ok vr.2)
    | .error e => (st, .error e)
  | .transform => (st, actionTransform st.vars config)
  | .sendEmail => ({ st with idCalls := st.idCalls + 1 },
      actionSendEmail (o.idAddr st.idCalls))
  | .pushNotification => (st, actionPushNotification)
  | .condition => (st, actionCondition st.vars config)
  | .delay => (st, actionDelay config)
  | .httpRequest => (st, actionHttpRequest o.transport config)

/-- result.get("result", False) on the condition result followed by the
Python truthiness test applied by the branch selection. -/
def condResultOf (result : Value) : Bool :=
  match result with
  | .obj kvs => pyTruthy ((lookupV "result" kvs).getD (.bool false))
  | _ => pyTruthy (.bool false)

/-- The successor loop at the tail of _execute_node, parameterised by the
recursive visit (`execChild`, the `await self._execute_node(...)` call on
a successor): walk the outgoing edges in order; skip an edge whose target
resolves to no node; for a condition node follow an edge only on a
matching true/false handle; stop at the first exception, carrying the
state accumulated so far. -/
def processEdges (execChild : Node → St → St × Option String) (ntype : Option String)
    (result : Value) (allNodes : List Node) : List EdgeInfo → St → St × Option String
  | [], st => (st, none)
  | e :: rest, st =>
    match getNodeById e.target allNodes with
    | none => processEdges execChild ntype result allNodes rest st
    | some tn =>
      let step : St × Option String :=
        match execChild tn st with
        | (st', none) => processEdges execChild ntype result allNodes rest st'
        | (st', some err) => (st', some err)
      if ntype == some "condition" then
        if e.sourceHandle == some "true" && condResultOf result then step
        else if e.sourceHandle == some "false" && !condResultOf result then step
        else processEdges execChild ntype result allNodes rest st
      else step

/-- WorkflowExecutor._execute_node: visit one node and recurse along its
outgoing edges.  Fuel embeds the Python recursion-depth limit; running
out of fuel is a raised RecursionError, an ordinary Exception caught by
execute.  On entry the current-node pointer is moved and node_start is
logged; an action node looks its action id up in the catalog, raising
"Unknown action: <id>" on a miss, and stores the raw handler result under
the synthetic variable _<node_id>_result; a condition node runs the
logic.condition handler on its own config without storing the result; an
output node logs an output event with the variables snapshot and returns
without logging node_complete and without following edges. -/
def executeNode (o : Oracles) : Nat → Node → List Node → Adj → St → St × Option String
  | 0 => fun _ _ _ st => (st, some "maximum recursion depth exceeded")
  | Nat.succ fuel => fun node allNodes adj st =>
    let st := { st with currentNodeId := node.id }
    let st := logStep st "node_start" (.obj
      [("node_id", optV node.id), ("type", optV node.type), ("action", optV node.actionId)])
    let after : St → Value → St × Option String := fun st result =>
      let st := logStep st "node_complete"
        (.obj [("node_id", optV node.id), ("result", result)])
      processEdges (fun tn st' => executeNode o fuel tn allNodes adj st')
        node.type result allNodes (adjGet adj node.id) st
    if node.type == some "trigger" then
      after st (.obj [("triggered", .bool true)])
    else if node.type == some "action" then
      match registryGet node.actionId with
      | none => (st, some ("Unknown action: " ++ optStr node.actionId))
      | some b =>
        match runHandler o b st node.config with
        | (st', .error e) => (st', some e)
        | (st', .ok result) =>
          let newVars := dictSet st'.vars ("_" ++ optStr node.id ++ "_result") result
          after { st' with vars := newVars } result
    else if node.type == some "condition" then
      match actionCondition st.vars node.config with
      | .error e => (st, some e)
      | .ok result => after st result
    else if node.type == some "output" then
      (logStep st "output" (.obj [("data", .obj st.vars)]), none)
    else
      after st (.obj [])

/-- A workflow definition whose nodes_json and edges_json already parse
into node and edge lists. -/
structure WorkflowDef where
  nodes : List Node
  edges : List EdgeRec

/-- The body of the try block of execute: initialise the context, build
the adjacency, locate the trigger and run the traversal; a missing
trigger is the raised definition error. -/
def runTraversal (o : Oracles) (fuel : Nat) (w : WorkflowDef) : St × Option String :=
  let st0 : St := { vars := [], log := [], currentNodeId := none, idCalls := 0 }
  match findTrigger w.nodes with
  | none => (st0, some "No trigger node found in workflow")
  | some t => executeNode o fuel t w.nodes (buildAdjacency w.edges) st0

/-- The Execution Record as returned to the caller: terminal status,
input and output snapshots, the persisted log, error detail and the
current-node pointer.  output_data stays unset on failure, as in the
source. -/
structure ExecutionRecord where
  status : String
  inputData : List (String × Value)
  outputData : Option (List (String × Value))
  executionLog : List LogEntry
  errorMessage : Option String
  currentNodeId : Option String

/-- WorkflowExecutor.execute: run the traversal inside the catch-all;
on success the record completes with the variables snapshot as
output_data, on any raised exception the record fails with the message
and an error event appended to the log.  The input payload is recorded
and exposed through the context but read by no built-in handler. -/
def execute (o : Oracles) (fuel : Nat) (w : WorkflowDef)
    (input : List (String × Value)) : ExecutionRecord :=
  match runTraversal o fuel w with
  | (st, none) =>
    { status := "completed", inputData := input, outputData := some st.vars,
      executionLog := st.log, errorMessage := none, currentNodeId := st.currentNodeId }
  | (st, some e) =>
    { status := "failed", inputData := input, outputData := none,
      executionLog := st.log ++ [⟨"error", .obj [("message", .str e)]⟩],
      errorMessage := some e, currentNodeId := st.currentNodeId }

/-- Initial-segment predicate on character lists (Python startswith as a
proposition). -/
def leadsOf (p s : List Char) : Prop := ∃ t, s = p ++ t

/-- Occurrence-as-substring predicate on character lists (Python `in` as
a proposition). -/
def occursIn (p s : List Char) : Prop := ∃ a b, s = a ++ (p ++ b)

/-- Character list free of brace characters. -/
def braceFree (s : List Char) : Prop := ∀ c ∈ s, c ≠ lb ∧ c ≠ rb

instance (s : List Char) : Decidable (braceFree s) :=
  List.decidableBAll _ s

/-- No match of `a` starts strictly inside `b` (at any offset below the
length of `b`, under any continuation): the overlap condition under which
one replacement pattern cannot destroy an occurrence of another. -/
def noCross (a b : List Char) : Prop :=
  ∀ i t, i < b.length → ¬ leadsOf a (b.drop i ++ t)

/-- Fixed oracle instance: every id() call yields address 1, the network
is down. -/
def oracleA : Oracles := ⟨fun _ => 1, fun _ _ _ _ => .error "offline"⟩

/-- Second oracle instance, differing from `oracleA` only in the memory
addresses handed out by id(). -/
def oracleB : Oracles := ⟨fun _ => 2, fun _ _ _ _ => .error "offline"⟩

/-- The workflow of claim C2: trigger → set_variable x := 1 → output. -/
def wfC2 : WorkflowDef :=
  { nodes := [
      ⟨some "t1", some "trigger", none, []⟩,
      ⟨some "a1", some "action", some "data.set_variable",
        [("name", .str "x"), ("value", .int 1)]⟩,
      ⟨some "o1", some "output", none, []⟩],
    edges := [⟨some "t1", some "a1", none, none⟩, ⟨some "a1", some "o1", none, none⟩] }

/-- The workflow of the dead-branch part of claim C3: trigger → condition
5 > 3, whose only outgoing edge carries handle "false". -/
def wfC3 : WorkflowDef :=
  { nodes := [
      ⟨some "t1", some "trigger", none, []⟩,
      ⟨some "c1", some "condition", none,
        [("left", .int 5), ("operator", .str ">"), ("right", .int 3)]⟩,
      ⟨some "b1", some "action", some "data.log", [("message", .str "dead")]⟩],
    edges := [⟨some "t1", some "c1", none, none⟩,
              ⟨some "c1", some "b1", some "false", none⟩] }

/-- A workflow whose traversal reaches an action node with an
unregistered action id (used to witness claim C4). -/
def wfC4 : WorkflowDef :=
  { nodes := [
      ⟨some "t1", some "trigger", none, []⟩,
      ⟨some "a1", some "action", some "custom.nope", []⟩],
    edges := [⟨some "t1", some "a1", none, none⟩] }

/-- The workflow of claim C7: trigger → email.send → output. -/
def wfC7 : WorkflowDef :=
  { nodes := [
      ⟨some "t1", some "trigger", none, []⟩,
      ⟨some "e1", some "action", some "email.send",
        [("to", .str "a@b"), ("subject", .str "s"), ("body", .str "hi")]⟩,
      ⟨some "o1", some "output", none, []⟩],
    edges := [⟨some "t1", some "e1", none, none⟩, ⟨some "e1", some "o1", none, none⟩] }

/-- The workflow of claim C10: the trigger has one dangling edge (target
matching no node) followed by an edge to the output node. -/
def wfC10 : WorkflowDef :=
  { nodes := [
      ⟨some "t1", some "trigger", none, []⟩,
      ⟨some "o1", some "output", none, []⟩],
    edges := [⟨some "t1", some "ghost", none, none⟩, ⟨some "t1", some "o1", none, none⟩] }

/-- The node_start log entry written on entry to a node. -/
def nodeStartEntry (node : Node) : LogEntry :=
  ⟨"node_start", .obj [("node_id", optV node.id), ("type", optV node.type),
    ("action", optV node.actionId)]⟩

/-- The state after the entry bookkeeping of _execute_node: current-node
pointer moved, node_start appended. -/
def stAfterStart (st : St) (node : Node) : St :=
  { st with currentNodeId := node.id, log := st.log ++ [nodeStartEntry node] }

theorem strDataAppend (a b : String) : (a ++ b).data = a.data ++ b.data := rfl

theorem hasLead_refl (p : List Char) : hasLead p p = true := by
  induction p with
  | nil => rfl
  | cons c rest ih => simp [hasLead, ih]

theorem hasOccur_append_self (p pre : List Char) : hasOccur p (pre ++ p) = true := by
  induction pre with
  | nil =>
    cases p with
    | nil => rfl
    | cons c rest => simp [hasOccur, hasLead_refl]
  | cons c pre ih => simp [hasOccur, ih]

/-- C1: for every oracle outcome, recursion budget, parsed workflow and
input payload, execute returns an Execution Record in a terminal status,
completed or failed, with the error message set exactly when failed and
the output snapshot present exactly when completed: the catch-all of
execute lets no exception reach the caller, including for definitions
with no trigger node, unknown action ids, raising handlers and exhausted
recursion depth. -/
theorem C1_execute_total_terminal (o : Oracles) (fuel : Nat) (w : WorkflowDef)
    (input : List (String × Value)) :
    ((execute o fuel w input).status = "completed" ∧
      (execute o fuel w input).errorMessage = none ∧
      (execute o fuel w input).outputData.isSome = true) ∨
    ((execute o fuel w input).status = "failed" ∧
      (execute o fuel w input).errorMessage.isSome = true) := by
  rcases hr : runTraversal o fuel w with ⟨st, err⟩
  cases err with
  | none => exact Or.inl (by simp [execute, hr])
  | some e => exact Or.inr (by simp [execute, hr])

/-- C2 counterexample: on the workflow trigger → set_variable x := 1 →
output, execution completes but output_data is not the one-key dict
x := 1 (as Python dicts, pyEq): the interpreter also stores the raw
handler result under the synthetic key _a1_result, so the claimed
output_data value is wrong at this input. -/
theorem C2_output_counterexample :
    (execute oracleA 10 wfC2 []).status = "completed" ∧
    pyEq (Value.obj ((execute oracleA 10 wfC2 []).outputData.getD []))
      (Value.obj [("x", Value.int 1)]) = false :=
  ⟨rfl, rfl⟩

/-- C2 amended: on the workflow trigger → A(set_variable x := 1) →
output where the node id of A is a1, execution with any input and any oracle
completes with output_data x := 1 together with the synthetic key
_a1_result holding the raw set_variable result success := true. -/
theorem C2_output_amended (o : Oracles) (input : List (String × Value)) :
    (execute o 10 wfC2 input).status = "completed" ∧
    (execute o 10 wfC2 input).outputData =
      some [("x", Value.int 1),
            ("_a1_result", Value.obj [("success", Value.bool true)])] :=
  ⟨rfl, rfl⟩

/-- C9 counterexample: data.log on the config message "hello" with no
variables returns logged := true together with the extra key _log
holding the interpolated message, which is not equal (as Python dicts)
to the bare map logged := true the claim states. -/
theorem C9_log_counterexample :
    actionLog [] [("message", Value.str "hello")] =
      .ok (.obj [("logged", Value.bool true), ("_log", Value.str "hello")]) ∧
    pyEq (.obj [("logged", Value.bool true), ("_log", Value.str "hello")])
      (.obj [("logged", Value.bool true)]) = false :=
  ⟨rfl, rfl⟩

/-- C9 amended: for every variables map and every config whose message
field (defaulted to the empty string when missing) is a string s, the
data.log handler returns the map logged := true, _log := m, where m is s
with each variable placeholder replaced by str(value) in insertion
order. -/
theorem C9_log_amended (vars config : List (String × Value)) (s : String)
    (h : (lookupV "message" config).getD (.str "") = .str s) :
    actionLog vars config =
      .ok (.obj [("logged", Value.bool true),
                 ("_log", Value.str (substString vars s))]) := by
  unfold actionLog
  rw [h]

/-- C9 witness: the amended data.log contract evaluated on a concrete
message and one variable. -/
theorem C9_log_witness :
    actionLog [("name", Value.str "Ada")] [("message", Value.str "hi \x7b\x7bname\x7d\x7d")] =
      .ok (.obj [("logged", Value.bool true), ("_log", Value.str "hi Ada")]) :=
  (C9_log_amended [("name", Value.str "Ada")]
    [("message", Value.str "hi \x7b\x7bname\x7d\x7d")] "hi \x7b\x7bname\x7d\x7d" rfl).trans rfl

/-- C6 counterexample: http.request propagates an exception for the
config whose method field is the integer 123 — the .upper() call sits
before the try block, so the AttributeError leaves the handler instead
of being converted into a structured status-0 result. -/
theorem C6_http_counterexample :
    actionHttpRequest (fun _ _ _ _ => .error "connection refused")
      [("method", Value.int 123)] =
      .error "AttributeError: int object has no attribute upper" :=
  rfl

/-- C6 amended: for every transport outcome and every config whose
method field, when present, is a string, http.request raises nothing:
it returns status together with the parsed data on transport success,
and status 0, null data and the error text on transport failure. -/
theorem C6_http_amended (transport : Transport) (config : List (String × Value))
    (h : ∀ v, lookupV "method" config = some v → ∃ s, v = Value.str s) :
    (∃ st d, actionHttpRequest transport config =
      .ok (.obj [("status", Value.int st), ("data", d)])) ∨
    (∃ e, actionHttpRequest transport config =
      .ok (.obj [("status", Value.int 0), ("data", Value.null),
                 ("error", Value.str e)])) := by
  rcases hmu : methodUpper (lookupV "method" config) with e | m
  · exfalso
    cases hm : lookupV "method" config with
    | none => rw [hm] at hmu; simp [methodUpper] at hmu
    | some v =>
      rcases h v hm with ⟨s, rfl⟩
      rw [hm] at hmu
      simp [methodUpper] at hmu
  · rcases ht : transport m ((lookupV "url" config).getD .null)
      ((lookupV "headers" config).getD (.obj [])) ((lookupV "body" config).getD .null)
      with e | sd
    · exact Or.inr ⟨e, by simp [actionHttpRequest, hmu, ht]⟩
    · exact Or.inl ⟨sd.1, sd.2, by simp [actionHttpRequest, hmu, ht]⟩

/-- C6 witness: the amended http.request contract evaluated on the empty
config against an unreachable network. -/
theorem C6_http_witness :
    (∃ st d, actionHttpRequest (fun _ _ _ _ => Except.error "offline") [] =
      .ok (.obj [("status", Value.int st), ("data", d)])) ∨
    (∃ e, actionHttpRequest (fun _ _ _ _ => Except.error "offline") [] =
      .ok (.obj [("status", Value.int 0), ("data", Value.null),
                 ("error", Value.str e)])) :=
  C6_http_amended (fun _ _ _ _ => Except.error "offline") []
    (by intro v hv; simp [lookupV] at hv)

/-- C10: an edge whose target id matches no node is skipped silently by
the successor loop — the state is untouched and the remaining outgoing
edges are processed — and, end to end, a workflow whose trigger has a
dangling edge next to a valid edge still completes without error. -/
theorem C10_dangling_edge_skipped :
    (∀ (execChild : Node → St → St × Option String) (ntype : Option String)
       (result : Value) (allNodes : List Node) (e : EdgeInfo)
       (rest : List EdgeInfo) (st : St),
       getNodeById e.target allNodes = none →
       processEdges execChild ntype result allNodes (e :: rest) st =
         processEdges execChild ntype result allNodes rest st) ∧
    ((execute oracleA 10 wfC10 []).status = "completed" ∧
     (execute oracleA 10 wfC10 []).errorMessage = none) := by
  refine ⟨?_, rfl, rfl⟩
  intro ec nt res ns e rest st h
  simp [processEdges, h]

/-- C10 witness: the dangling-edge skip evaluated on a concrete edge
whose target matches no node. -/
theorem C10_dangling_witness :
    processEdges (fun _ st => (st, none)) none (Value.obj []) []
      [⟨some "ghost", none, none⟩] ⟨[], [], none, 0⟩ =
    processEdges (fun _ st => (st, none)) none (Value.obj []) [] [] ⟨[], [], none, 0⟩ :=
  C10_dangling_edge_skipped.1 (fun _ st => (st, none)) none (Value.obj []) []
    ⟨some "ghost", none, none⟩ [] ⟨[], [], none, 0⟩ rfl

/-- C4: reaching an action node whose action id is not in the catalog
raises the fatal error "Unknown action: <id>".  First conjunct, node
level: visiting such a node moves the current-node pointer, appends the
node_start entry — and nothing else, in particular no node_complete for
the node — and raises a message that contains the unknown id.  Second
conjunct, engine level: whatever state and message the traversal raises
with, execute turns them into a failed record carrying exactly that
message, with the traversal log (error event appended) as the execution
log, so the node_start entry survives into the record and no
node_complete for the failing node is ever added. -/
theorem C4_unknown_action_failure :
    (∀ (o : Oracles) (fuel : Nat) (node : Node) (allNodes : List Node)
       (adj : Adj) (st : St),
       node.type = some "action" →
       registryGet node.actionId = none →
       executeNode o (fuel + 1) node allNodes adj st =
         (stAfterStart st node, some ("Unknown action: " ++ optStr node.actionId)) ∧
       hasOccur (optStr node.actionId).data
         ("Unknown action: " ++ optStr node.actionId).data = true) ∧
    (∀ (o : Oracles) (fuel : Nat) (w : WorkflowDef) (input : List (String × Value))
       (st : St) (e : String),
       runTraversal o fuel w = (st, some e) →
       (execute o fuel w input).status = "failed" ∧
       (execute o fuel w input).errorMessage = some e ∧
       (execute o fuel w input).executionLog =
         st.log ++ [⟨"error", .obj [("message", Value.str e)]⟩]) := by
  constructor
  · intro o fuel node allNodes adj st h1 h2
    refine ⟨?_, by rw [strDataAppend]; exact hasOccur_append_self _ _⟩
    simp [executeNode, logStep, stAfterStart, nodeStartEntry, h1, h2]
  · intro o fuel w input st e h
    simp [execute, h]

/-- C4 witness: the unknown-action behaviour evaluated on a concrete
node (first conjunct) and on the concrete workflow wfC4 whose traversal
raises at the action node a1 (second conjunct). -/
theorem C4_unknown_action_witness :
    (executeNode oracleA (4 + 1) ⟨some "a1", some "action", some "custom.nope", []⟩
       [] [] ⟨[], [], none, 0⟩ =
       (stAfterStart ⟨[], [], none, 0⟩ ⟨some "a1", some "action", some "custom.nope", []⟩,
        some "Unknown action: custom.nope") ∧
     hasOccur ("custom.nope").data ("Unknown action: custom.nope").data = true) ∧
    ((execute oracleA 10 wfC4 []).status = "failed" ∧
     (execute oracleA 10 wfC4 []).errorMessage = some "Unknown action: custom.nope" ∧
     (execute oracleA 10 wfC4 []).executionLog =
       (⟨[],
         [⟨"node_start", .obj [("node_id", Value.str "t1"), ("type", Value.str "trigger"),
            ("action", Value.null)]⟩,
          ⟨"node_complete", .obj [("node_id", Value.str "t1"),
            ("result", Value.obj [("triggered", Value.bool true)])]⟩,
          ⟨"node_start", .obj [("node_id", Value.str "a1"), ("type", Value.str "action"),
            ("action", Value.str "custom.nope")]⟩],
         some "a1", 0⟩ : St).log ++
           [⟨"error", .obj [("message", Value.str "Unknown action: custom.nope")]⟩]) :=
  ⟨C4_unknown_action_failure.1 oracleA 4 ⟨some "a1", some "action", some "custom.nope", []⟩
     [] [] ⟨[], [], none, 0⟩ rfl rfl,
   C4_unknown_action_failure.2 oracleA 10 wfC4 []
     ⟨[],
      [⟨"node_start", .obj [("node_id", Value.str "t1"), ("type", Value.str "trigger"),
         ("action", Value.null)]⟩,
       ⟨"node_complete", .obj [("node_id", Value.str "t1"),
         ("result", Value.obj [("triggered", Value.bool true)])]⟩,
       ⟨"node_start", .obj [("node_id", Value.str "a1"), ("type", Value.str "action"),
         ("action", Value.str "custom.nope")]⟩],
      some "a1", 0⟩ "Unknown action: custom.nope" rfl⟩

/-- C3: after a condition node evaluates to boolean b, an outgoing edge
whose target resolves to a node is followed exactly when its handle is
the string "true" and b is true, or "false" and b is false (first
conjunct: a matching edge makes the loop visit the target and continue
or abort as the visit dictates; second conjunct: a missing or
non-matching handle leaves the state untouched and moves to the
remaining edges — dangling targets are the business of the dangling-edge
claim).  Third conjunct, end to end: in the workflow whose condition
5 > 3 evaluates true but whose only outgoing edge carries handle
"false", no successor is visited and execution still completes, with the
execution log ending at the node_complete of the condition node. -/
theorem C3_condition_branch_selection :
    (∀ (execChild : Node → St → St × Option String) (e : EdgeInfo)
       (rest : List EdgeInfo) (allNodes : List Node) (tn : Node) (st : St) (b : Bool),
       getNodeById e.target allNodes = some tn →
       (((e.sourceHandle = some "true" ∧ b = true) ∨
         (e.sourceHandle = some "false" ∧ b = false)) →
         processEdges execChild (some "condition") (.obj [("result", .bool b)])
             allNodes (e :: rest) st =
           (match execChild tn st with
            | (st', none) => processEdges execChild (some "condition")
                (.obj [("result", .bool b)]) allNodes rest st'
            | (st', some err) => (st', some err))) ∧
       (¬ ((e.sourceHandle = some "true" ∧ b = true) ∨
           (e.sourceHandle = some "false" ∧ b = false)) →
         processEdges execChild (some "condition") (.obj [("result", .bool b)])
             allNodes (e :: rest) st =
           processEdges execChild (some "condition") (.obj [("result", .bool b)])
             allNodes rest st)) ∧
    ((execute oracleA 10 wfC3 []).status = "completed" ∧
     (execute oracleA 10 wfC3 []).errorMessage = none ∧
     (execute oracleA 10 wfC3 []).executionLog =
       [⟨"node_start", .obj [("node_id", Value.str "t1"), ("type", Value.str "trigger"),
          ("action", Value.null)]⟩,
        ⟨"node_complete", .obj [("node_id", Value.str "t1"),
          ("result", Value.obj [("triggered", Value.bool true)])]⟩,
        ⟨"node_start", .obj [("node_id", Value.str "c1"), ("type", Value.str "condition"),
          ("action", Value.null)]⟩,
        ⟨"node_complete", .obj [("node_id", Value.str "c1"),
          ("result", Value.obj [("result", Value.bool true)])]⟩]) := by
  refine ⟨?_, rfl, rfl, rfl⟩
  intro ec e rest ns tn st b h
  constructor
  · rintro (⟨hh, hb⟩ | ⟨hh, hb⟩) <;> subst hb <;>
      simp [processEdges, h, hh, condResultOf, lookupV, pyTruthy]
  · intro hn
    rw [not_or] at hn
    obtain ⟨hA, hB⟩ := hn
    have g1 : (e.sourceHandle == some "true" &&
        condResultOf (.obj [("result", Value.bool b)])) = false := by
      cases hb : b
      · simp [condResultOf, lookupV, pyTruthy]
      · have hne : e.sourceHandle ≠ some "true" := fun hh => hA ⟨hh, hb⟩
        simp [beq_eq_false_iff_ne, hne]
    have g2 : (e.sourceHandle == some "false" &&
        !condResultOf (.obj [("result", Value.bool b)])) = false := by
      cases hb : b
      · have hne : e.sourceHandle ≠ some "false" := fun hh => hB ⟨hh, hb⟩
        simp [beq_eq_false_iff_ne, hne]
      · simp [condResultOf, lookupV, pyTruthy]
    simp [processEdges, h, g1, g2]

/-- C3 witness: the branch selection evaluated on a concrete matching
edge (handle "true", condition result true): the successor is visited
and the loop then finishes. -/
theorem C3_branch_witness :
    processEdges (fun _ st => (st, none)) (some "condition")
      (.obj [("result", Value.bool true)]) [⟨some "b1", some "output", none, []⟩]
      [⟨some "b1", some "true", none⟩] ⟨[], [], none, 0⟩ =
      (⟨[], [], none, 0⟩, none) :=
  ((C3_condition_branch_selection.1 (fun _ st => (st, none)) ⟨some "b1", some "true", none⟩
    [] [⟨some "b1", some "output", none, []⟩] ⟨some "b1", some "output", none, []⟩
    ⟨[], [], none, 0⟩ true rfl).1 (Or.inl ⟨rfl, rfl⟩)).trans rfl

/-- C5: semantics of the logic.condition handler.  First conjunct,
operand resolution: for every name, the string "\x7b\x7b" ++ name ++
"\x7d\x7d" resolves to variables[name] when the key is present and to
the literal string otherwise.  Remaining conjuncts, operator dispatch on
the resolved operands l and r: == yields Python equality of l and r, !=
its negation, the four numeric operators compare after float() coercion
of both sides (floats idealised as exact rationals), and contains tests
substring containment of str(r) in str(l). -/
theorem C5_condition_handler_semantics :
    (∀ (vars : List (String × Value)) (name : String),
       resolveOperand vars (.str (patStr name)) =
         (lookupV name vars).getD (.str (patStr name))) ∧
    (∀ (vars config : List (String × Value)) (l r : Value),
       l = resolveOperand vars ((lookupV "left" config).getD .null) →
       r = resolveOperand vars ((lookupV "right" config).getD .null) →
       (((lookupV "operator" config).getD (.str "==") = .str "==" →
          actionCondition vars config = .ok (.obj [("result", Value.bool (pyEq l r))])) ∧
        ((lookupV "operator" config).getD (.str "==") = .str "!=" →
          actionCondition vars config = .ok (.obj [("result", Value.bool (!pyEq l r))])) ∧
        (∀ a b : Rat, (lookupV "operator" config).getD (.str "==") = .str ">" →
          pyFloat l = .ok a → pyFloat r = .ok b →
          actionCondition vars config =
            .ok (.obj [("result", Value.bool (decide (a > b)))])) ∧
        (∀ a b : Rat, (lookupV "operator" config).getD (.str "==") = .str "<" →
          pyFloat l = .ok a → pyFloat r = .ok b →
          actionCondition vars config =
            .ok (.obj [("result", Value.bool (decide (a < b)))])) ∧
        (∀ a b : Rat, (lookupV "operator" config).getD (.str "==") = .str ">=" →
          pyFloat l = .ok a → pyFloat r = .ok b →
          actionCondition vars config =
            .ok (.obj [("result", Value.bool (decide (a ≥ b)))])) ∧
        (∀ a b : Rat, (lookupV "operator" config).getD (.str "==") = .str "<=" →
          pyFloat l = .ok a → pyFloat r = .ok b →
          actionCondition vars config =
            .ok (.obj [("result", Value.bool (decide (a ≤ b)))])) ∧
        ((lookupV "operator" config).getD (.str "==") = .str "contains" →
          actionCondition vars config =
            .ok (.obj [("result",
              Value.bool (hasOccur (pyStr r).data (pyStr l).data))])))) := by
  constructor
  · intro vars name
    have hlead : hasLead [lb, lb] (patStr name).data = true := by
      simp [patStr, patOf, hasLead]
    have hend : hasEnd [rb, rb] (patStr name).data = true := by
      simp [patStr, patOf, hasEnd, hasLead, List.reverse_append]
    have hdrop : (patStr name).data.drop 2 = name.data ++ [rb, rb] := by
      simp [patStr, patOf]
    have htake : (name.data ++ [rb, rb]).take ((name.data ++ [rb, rb]).length - 2) =
        name.data := by
      simp [List.take_left]
    show resolveOperand vars (.str (patStr name)) = _
    rw [resolveOperand]
    rw [hlead, hend]
    simp only [Bool.and_self, if_true]
    rw [hdrop, htake]
    have hmk : String.mk name.data = name := rfl
    rw [hmk]
    cases hlk : lookupV name vars <;> simp [hlk]
  · intro vars config l r hl hr
    refine ⟨?_, ?_, ?_, ?_, ?_, ?_, ?_⟩
    · intro hop
      simp [actionCondition, hop, ← hl, ← hr]
    · intro hop
      simp [actionCondition, hop, ← hl, ← hr]
    · intro a b hop ha hb
      simp [actionCondition, hop, ← hl, ← hr, ha, hb]
    · intro a b hop ha hb
      simp [actionCondition, hop, ← hl, ← hr, ha, hb]
    · intro a b hop ha hb
      simp [actionCondition, hop, ← hl, ← hr, ha, hb]
    · intro a b hop ha hb
      simp [actionCondition, hop, ← hl, ← hr, ha, hb]
    · intro hop
      simp [actionCondition, hop, ← hl, ← hr]

/-- C5 witness: operand resolution evaluated on a present variable, and
the numeric greater-than dispatch evaluated on the resolved operand 7
against the literal 3. -/
theorem C5_condition_witness :
    resolveOperand [("x", Value.int 7)] (.str (patStr "x")) = Value.int 7 ∧
    actionCondition [("x", Value.int 7)]
      [("left", Value.str (patStr "x")), ("operator", Value.str ">"),
       ("right", Value.int 3)] = .ok (.obj [("result", Value.bool true)]) :=
  ⟨(C5_condition_handler_semantics.1 [("x", Value.int 7)] "x").trans rfl,
   ((C5_condition_handler_semantics.2 [("x", Value.int 7)]
      [("left", Value.str (patStr "x")), ("operator", Value.str ">"),
       ("right", Value.int 3)] (Value.int 7) (Value.int 3) rfl rfl).2.2.1
      7 3 rfl rfl rfl).trans rfl⟩

theorem mem_of_getNodeById {tid : Option String} {nodes : List Node} {tn : Node}
    (h : getNodeById tid nodes = some tn) : tn ∈ nodes :=
  List.mem_of_find?_eq_some h

theorem registryGet_sendEmail {aid : Option String}
    (h : registryGet aid = some Builtin.sendEmail) : aid = some "email.send" := by
  unfold registryGet at h
  split at h <;> simp_all

theorem runHandler_oracle_congr (t : Transport) (a1 a2 : Nat → Nat) (b : Builtin)
    (hb : b ≠ Builtin.sendEmail) :
    ∀ (st : St) (config : List (String × Value)),
      runHandler ⟨a1, t⟩ b st config = runHandler ⟨a2, t⟩ b st config := by
  intro st config
  cases b <;> first | rfl | exact absurd rfl hb

theorem processEdges_congr (ec1 ec2 : Node → St → St × Option String)
    (nt : Option String) (res : Value) (ns : List Node)
    (h : ∀ tn st, tn ∈ ns → ec1 tn st = ec2 tn st) :
    ∀ (es : List EdgeInfo) (st : St),
      processEdges ec1 nt res ns es st = processEdges ec2 nt res ns es st := by
  intro es
  induction es with
  | nil => intro st; rfl
  | cons e rest ih =>
    intro st
    cases hg : getNodeById e.target ns with
    | none => simp [processEdges, hg, ih]
    | some tn =>
      have hm := mem_of_getNodeById hg
      have hstep : (match ec1 tn st with
          | (st', none) => processEdges ec1 nt res ns rest st'
          | (st', some err) => (st', some err)) =
        (match ec2 tn st with
          | (st', none) => processEdges ec2 nt res ns rest st'
          | (st', some err) => (st', some err)) := by
        rw [← h tn st hm]
        cases ec1 tn st with
        | mk st' err => cases err <;> simp [ih]
      simp only [processEdges, hg]
      split_ifs <;> first | exact hstep | exact ih st

theorem executeNode_oracle_congr (t : Transport) (a1 a2 : Nat → Nat) :
    ∀ (fuel : Nat) (node : Node) (ns : List Node) (adj : Adj) (st : St),
      (∀ n ∈ ns, n.actionId ≠ some "email.send") →
      node.actionId ≠ some "email.send" →
      executeNode ⟨a1, t⟩ fuel node ns adj st = executeNode ⟨a2, t⟩ fuel node ns adj st := by
  intro fuel
  induction fuel with
  | zero => intro node ns adj st hns hn; rfl
  | succ f ih =>
    intro node ns adj st hns hn
    have hpe : ∀ (nt : Option String) (res : Value) (st' : St),
        processEdges (fun tn s => executeNode ⟨a1, t⟩ f tn ns adj s) nt res ns
          (adjGet adj node.id) st' =
        processEdges (fun tn s => executeNode ⟨a2, t⟩ f tn ns adj s) nt res ns
          (adjGet adj node.id) st' :=
      fun nt res st' => processEdges_congr _ _ nt res ns
        (fun tn s htn => ih tn ns adj s hns (hns tn htn)) _ st'
    simp only [executeNode]
    split_ifs with h1 h2 h3 h4
    · exact hpe _ _ _
    · cases hreg : registryGet node.actionId with
      | none => rfl
      | some b =>
        have hb : b ≠ Builtin.sendEmail := by
          intro hbe
          exact hn (registryGet_sendEmail (hbe ▸ hreg))
        simp only [runHandler_oracle_congr t a1 a2 b hb, hpe]
    · cases actionCondition _ node.config with
      | error e => rfl
      | ok result => exact hpe _ _ _
    · rfl
    · exact hpe _ _ _

/-- C7 counterexample: two executions of the workflow trigger →
email.send → output, on the same input, are modelled by two id() address
oracles (the memory address of the config dict is not preserved from one
run to the next); the resulting output_data values differ as Python
dicts, because the email message id embeds id(config).  The claimed
identity of output_data across runs therefore fails at this input. -/
theorem C7_rerun_counterexample :
    pyEq (Value.obj ((execute oracleA 10 wfC7 []).outputData.getD []))
      (Value.obj ((execute oracleB 10 wfC7 []).outputData.getD [])) = false :=
  rfl

/-- C7 amended: for every workflow none of whose nodes references the
email.send action, two runs with the same transport but arbitrary id()
address oracles produce literally the same Execution Record — identical
output_data and identical log, timestamps excepted by construction — so
no state leaks across runs through the shared catalog; email.send is the
sole exception, its message id embedding a memory address. -/
theorem C7_rerun_amended (t : Transport) (a1 a2 : Nat → Nat) (fuel : Nat)
    (w : WorkflowDef) (input : List (String × Value))
    (h : ∀ n ∈ w.nodes, n.actionId ≠ some "email.send") :
    execute ⟨a1, t⟩ fuel w input = execute ⟨a2, t⟩ fuel w input := by
  have hrt : runTraversal ⟨a1, t⟩ fuel w = runTraversal ⟨a2, t⟩ fuel w := by
    unfold runTraversal
    cases hf : findTrigger w.nodes with
    | none => rfl
    | some tr =>
      have htr : tr ∈ w.nodes := List.mem_of_find?_eq_some hf
      exact executeNode_oracle_congr t a1 a2 fuel tr w.nodes _ _ h (h tr htr)
  simp [execute, hrt]

/-- C7 witness: the two-oracle identity evaluated on the email-free
workflow of claim C2. -/
theorem C7_rerun_witness :
    execute oracleA 10 wfC2 [] = execute oracleB 10 wfC2 [] :=
  C7_rerun_amended (fun _ _ _ _ => Except.error "offline") (fun _ => 1) (fun _ => 2)
    10 wfC2 []
    (by
      intro n hn
      simp only [wfC2, List.mem_cons, List.not_mem_nil, or_false] at hn
      rcases hn with rfl | rfl | rfl <;> simp)

theorem leadsOf_nil (s : List Char) : leadsOf [] s :=
  ⟨s, rfl⟩

theorem not_leadsOf_cons_nil (a : Char) (as : List Char) : ¬ leadsOf (a :: as) [] := by
  rintro ⟨t, h⟩
  exact List.noConfusion h

theorem leadsOf_cons_iff (a b : Char) (as bs : List Char) :
    leadsOf (a :: as) (b :: bs) ↔ a = b ∧ leadsOf as bs := by
  constructor
  · rintro ⟨t, h⟩
    injection h with h1 h2
    exact ⟨h1.symm, t, h2⟩
  · rintro ⟨rfl, t, rfl⟩
    exact ⟨t, rfl⟩

theorem hasLead_iff_leadsOf (p : List Char) :
    ∀ s, hasLead p s = true ↔ leadsOf p s := by
  induction p with
  | nil => intro s; simp [hasLead, leadsOf_nil]
  | cons a as ih =>
    intro s
    cases s with
    | nil => simp [hasLead, not_leadsOf_cons_nil]
    | cons b bs => simp [hasLead, leadsOf_cons_iff, ih bs]

theorem occursIn_cons_iff (p : List Char) (c : Char) (s : List Char) :
    occursIn p (c :: s) ↔ leadsOf p (c :: s) ∨ occursIn p s := by
  constructor
  · rintro ⟨a, b, h⟩
    cases a with
    | nil => exact Or.inl ⟨b, h⟩
    | cons x a' =>
      injection h with h1 h2
      exact Or.inr ⟨a', b, h2⟩
  · rintro (⟨t, h⟩ | ⟨a, b, h⟩)
    · exact ⟨[], t, h⟩
    · exact ⟨c :: a, b, by rw [h]; rfl⟩

theorem occursIn_nil_iff (p : List Char) : occursIn p [] ↔ p = [] := by
  constructor
  · rintro ⟨a, b, h⟩
    rcases List.append_eq_nil.mp h.symm with ⟨rfl, h2⟩
    rcases List.append_eq_nil.mp h2 with ⟨rfl, rfl⟩
    rfl
  · rintro rfl
    exact ⟨[], [], rfl⟩

theorem hasOccur_iff_occursIn (p : List Char) :
    ∀ s, hasOccur p s = true ↔ occursIn p s := by
  intro s
  induction s with
  | nil =>
    cases p with
    | nil => simp [hasOccur, hasLead, occursIn_nil_iff]
    | cons a as => simp [hasOccur, hasLead, occursIn_nil_iff]
  | cons c rest ih =>
    simp [hasOccur, occursIn_cons_iff, hasLead_iff_leadsOf, ih, Bool.or_eq_true]

theorem replaceGo_skip (old new : List Char) :
    ∀ (l t : List Char), replaceGo old new l.length (l ++ t) = replaceGo old new 0 t := by
  intro l
  induction l with
  | nil => intro t; rfl
  | cons c l' ih =>
    intro t
    show replaceGo old new (l'.length + 1) (c :: (l' ++ t)) = _
    rw [show replaceGo old new (l'.length + 1) (c :: (l' ++ t)) =
      replaceGo old new l'.length (l' ++ t) from rfl]
    exact ih t

theorem noCross_shift {p : List Char} {c : Char} {O : List Char}
    (h : noCross p (c :: O)) : noCross p O := by
  intro i t hi
  have := h (i + 1) t (by simpa using Nat.succ_lt_succ hi)
  simpa [List.drop_succ_cons] using this

theorem replaceGo_leads {p : List Char} (new : List Char) :
    ∀ (O : List Char), noCross p O →
      ∀ t, replaceGo p new 0 (O ++ t) = O ++ replaceGo p new 0 t := by
  intro O
  induction O with
  | nil => intro _ t; rfl
  | cons c O' ih =>
    intro hnc t
    have h0 : ¬ leadsOf p ((c :: O') ++ t) := by
      have := hnc 0 t (by simp)
      simpa using this
    have hL : hasLead p (c :: (O' ++ t)) = false := by
      rw [← Bool.not_eq_true]
      intro hl
      exact h0 (by simpa using (hasLead_iff_leadsOf p _).mp hl)
    show replaceGo p new 0 (c :: (O' ++ t)) = _
    rw [replaceGo]
    rw [hL]
    simp only [Bool.false_eq_true, if_false]
    rw [ih (noCross_shift hnc) t]
    rfl

theorem occursIn_append_left (O y x : List Char) (h : occursIn O x) :
    occursIn O (y ++ x) := by
  rcases h with ⟨a, b, rfl⟩
  exact ⟨y ++ a, b, by simp⟩

theorem occursIn_replaceGo {p O : List Char} (new : List Char)
    (hp : p ≠ []) (hO : O ≠ []) (h1 : noCross p O) (h2 : noCross O p) :
    ∀ s, occursIn O s → occursIn O (replaceGo p new 0 s) := by
  have main : ∀ (n : Nat) (s : List Char), s.length ≤ n → occursIn O s →
      occursIn O (replaceGo p new 0 s) := by
    intro n
    induction n with
    | zero =>
      intro s hlen hocc
      have : s = [] := List.length_eq_zero.mp (Nat.le_zero.mp hlen)
      subst this
      exact absurd ((occursIn_nil_iff O).mp hocc) hO
    | succ n ih =>
      intro s hlen hocc
      by_cases hOs : leadsOf O s
      · rcases hOs with ⟨t, rfl⟩
        rw [replaceGo_leads new O h1 t]
        exact ⟨[], _, rfl⟩
      · cases s with
        | nil => exact absurd ((occursIn_nil_iff O).mp hocc) hO
        | cons c s' =>
          have hocc' : occursIn O s' := by
            rcases (occursIn_cons_iff O c s').mp hocc with h | h
            · exact absurd h hOs
            · exact h
          have hlen' : s'.length ≤ n := Nat.le_of_succ_le_succ hlen
          by_cases hps : hasLead p (c :: s') = true
          · rcases (hasLead_iff_leadsOf p _).mp hps with ⟨rest, heq⟩
            cases p with
            | nil => exact absurd rfl hp
            | cons c0 p' =>
              injection heq with hc hs0
              have hs' : s' = p' ++ rest := hs0
              have hrest : occursIn O rest := by
                rcases hocc' with ⟨a, b, hab⟩
                have hsplit : a ++ (O ++ b) = p' ++ rest := by
                  rw [← hab]; exact hs'
                rcases List.append_eq_append_iff.mp hsplit with ⟨a', ha', hOb⟩ | ⟨c', hc', hr⟩
                · cases a' with
                  | nil =>
                    have hr2 : O ++ b = rest := by simpa using hOb
                    exact ⟨[], b, by rw [← hr2]; rfl⟩
                  | cons x a'' =>
                    exfalso
                    have hdrop : (c0 :: p').drop (a.length + 1) = x :: a'' := by
                      simp only [List.drop_succ_cons]
                      rw [ha', List.drop_left]
                    have hplen : p'.length = a.length + (x :: a'').length := by
                      rw [ha']; simp
                    have hlt : a.length + 1 < (c0 :: p').length := by
                      simp only [List.length_cons] at hplen ⊢
                      omega
                    have hcontra := h2 (a.length + 1) rest hlt
                    rw [hdrop] at hcontra
                    exact hcontra ⟨b, by rw [← hOb]⟩
                · exact ⟨c', b, by rw [hr]⟩
              have hlen'' : rest.length ≤ n := by
                have hsl : s'.length = p'.length + rest.length := by rw [hs']; simp
                omega
              have hres := ih rest hlen'' hrest
              show occursIn O (replaceGo (c0 :: p') new 0 (c :: s'))
              rw [replaceGo]
              rw [show hasLead (c0 :: p') (c :: s') = true from hps]
              simp only [if_true]
              rw [hs']
              rw [show (c0 :: p').length - 1 = p'.length from rfl]
              rw [replaceGo_skip]
              exact occursIn_append_left O new _ hres
          · have hres := ih s' hlen' hocc'
            show occursIn O (replaceGo p new 0 (c :: s'))
            rw [replaceGo]
            rw [show hasLead p (c :: s') = false from by
              rw [← Bool.not_eq_true]; exact hps]
            simp only [Bool.false_eq_true, if_false]
            exact (occursIn_cons_iff O c _).mpr (Or.inr hres)
  intro s
  exact main s.length s (Nat.le.refl)

theorem tail_clash (k : List Char) :
    ∀ (v x y : List Char), braceFree k → braceFree v → k ≠ v →
      (k ++ [rb, rb]) ++ x ≠ (v ++ [rb, rb]) ++ y := by
  induction k with
  | nil =>
    intro v x y _ hv hne h
    cases v with
    | nil => exact hne rfl
    | cons c v' =>
      simp only [List.nil_append, List.cons_append] at h
      injection h with h1 _
      exact ((hv c (by simp)).2 h1.symm).elim
  | cons c k' ih =>
    intro v x y hk hv hne h
    cases v with
    | nil =>
      simp only [List.nil_append, List.cons_append] at h
      injection h with h1 _
      exact ((hk c (by simp)).2 h1).elim
    | cons d v' =>
      simp only [List.cons_append] at h
      injection h with h1 h2
      subst h1
      exact ih v' x y (fun e he => hk e (by simp [he]))
        (fun e he => hv e (by simp [he]))
        (fun he => hne (by rw [he])) (by simpa using h2)

theorem no_lead_in_tail (w : List Char) :
    ∀ (v : List Char), braceFree v → ∀ (j : Nat) (x : List Char), j < v.length + 2 →
      ¬ leadsOf (lb :: w) ((v ++ [rb, rb]).drop j ++ x) := by
  intro v
  induction v with
  | nil =>
    intro _ j x hj h
    simp only [List.nil_append] at h
    cases j with
    | zero =>
      rw [show (([rb, rb] : List Char).drop 0 ++ x) = rb :: rb :: x from rfl] at h
      rw [leadsOf_cons_iff] at h
      exact absurd h.1 (by decide)
    | succ j' =>
      cases j' with
      | zero =>
        rw [show (([rb, rb] : List Char).drop 1 ++ x) = rb :: x from rfl] at h
        rw [leadsOf_cons_iff] at h
        exact absurd h.1 (by decide)
      | succ j'' =>
        simp only [List.length_nil] at hj
        omega
  | cons c v' ih =>
    intro hv j x hj h
    cases j with
    | zero =>
      simp only [List.cons_append, List.drop] at h
      rw [(leadsOf_cons_iff _ _ _ _)] at h
      exact ((hv c (by simp)).1 h.1.symm).elim
    | succ j' =>
      have hdrop : ((c :: v') ++ [rb, rb]).drop (j' + 1) = (v' ++ [rb, rb]).drop j' := by
        simp [List.cons_append, List.drop_succ_cons]
      rw [hdrop] at h
      exact ih (fun e he => hv e (by simp [he])) j' x
        (by simp only [List.length_cons] at hj; omega) h

theorem noCross_patL (k v : List Char) (hk : braceFree k) (hv : braceFree v)
    (hne : k ≠ v) : noCross (lb :: lb :: k ++ [rb, rb]) (lb :: lb :: v ++ [rb, rb]) := by
  intro i t hi hlead
  have hsk : (lb :: lb :: k) ++ [rb, rb] = lb :: lb :: (k ++ [rb, rb]) := by simp
  have hsv : (lb :: lb :: v) ++ [rb, rb] = lb :: lb :: (v ++ [rb, rb]) := by simp
  rw [hsv] at hlead hi
  rw [hsk] at hlead
  cases i with
  | zero =>
    simp only [List.drop, List.cons_append] at hlead
    rw [leadsOf_cons_iff] at hlead
    rw [leadsOf_cons_iff] at hlead
    rcases hlead.2.2 with ⟨t', ht'⟩
    exact tail_clash k v t' t hk hv hne ht'.symm
  | succ i' =>
    cases i' with
    | zero =>
      simp only [List.drop, List.cons_append] at hlead
      rw [leadsOf_cons_iff] at hlead
      exact no_lead_in_tail _ v hv 0 t (by omega) hlead.2
    | succ j =>
      have hdrop : (lb :: lb :: (v ++ [rb, rb])).drop (j + 2) = (v ++ [rb, rb]).drop j := rfl
      rw [hdrop] at hlead
      have hj : j < v.length + 2 := by
        simp only [List.length_cons, List.length_append, List.length_nil] at hi
        omega
      exact no_lead_in_tail _ v hv j t hj hlead

theorem lookupV_none_cons {v : String} {k1 : String} {val : Value}
    {rest : List (String × Value)} (h : lookupV v ((k1, val) :: rest) = none) :
    k1 ≠ v ∧ lookupV v rest = none := by
  rw [lookupV] at h
  split at h
  · exact absurd h (by simp)
  · next hb => exact ⟨by simpa using hb, h⟩

theorem patOf_ne_nil (k : String) : patOf k ≠ [] := by
  simp [patOf]

theorem noCross_patOf (k v : String) (hk : braceFree k.data) (hv : braceFree v.data)
    (hne : k ≠ v) : noCross (patOf k) (patOf v) :=
  noCross_patL k.data v.data hk hv (fun h => hne (congrArg String.mk h))

theorem substString_preserves (v : String) (hv : braceFree v.data) :
    ∀ (vars : List (String × Value)) (s : String),
      (∀ kv ∈ vars, braceFree kv.1.data) → lookupV v vars = none →
      occursIn (patOf v) s.data → occursIn (patOf v) (substString vars s).data := by
  intro vars
  induction vars with
  | nil => intro s _ _ h; simpa [substString] using h
  | cons kv rest ih =>
    intro s hbf hlk hocc
    obtain ⟨k1, val⟩ := kv
    obtain ⟨hne, hlk'⟩ := lookupV_none_cons hlk
    have hk1 : braceFree k1.data := hbf (k1, val) (by simp)
    have hstep : occursIn (patOf v) (pyReplace s (patStr k1) (pyStr val)).data :=
      occursIn_replaceGo (pyStr val).data (patOf_ne_nil k1) (patOf_ne_nil v)
        (noCross_patOf k1 v hk1 hv hne) (noCross_patOf v k1 hv hk1 (Ne.symm hne))
        s.data hocc
    have hfold : substString ((k1, val) :: rest) s =
        substString rest (pyReplace s (patStr k1) (pyStr val)) := rfl
    rw [hfold]
    exact ih _ (fun kv2 h2 => hbf kv2 (by simp [h2])) hlk' hstep

/-- C8 counterexample: the template string "\x7b\x7ba\x7d\x7db\x7d\x7d"
contains the placeholder of the name v = "a\x7d\x7db", v is not a key of
the variables map a := "Z", yet after data.transform the placeholder
text is gone: replacing "\x7b\x7ba\x7d\x7d" destroys the overlapping
occurrence, so the claimed verbatim preservation fails at this input. -/
theorem C8_transform_counterexample :
    lookupV "a\x7d\x7db" [("a", Value.str "Z")] = none ∧
    hasOccur (patOf "a\x7d\x7db") ("\x7b\x7ba\x7d\x7db\x7d\x7d" : String).data = true ∧
    actionTransform [("a", Value.str "Z")]
      [("template", Value.obj [("g", Value.str "\x7b\x7ba\x7d\x7db\x7d\x7d")])] =
      .ok (.obj [("result", Value.obj [("g", Value.str "Zb\x7d\x7d")])]) ∧
    hasOccur (patOf "a\x7d\x7db") ("Zb\x7d\x7d" : String).data = false :=
  ⟨rfl, rfl, rfl, rfl⟩

/-- C8 amended.  First conjunct: the concrete round trip — template
greeting := "hi \x7b\x7bname\x7d\x7d" with name := "Ada" transforms to
greeting := "hi Ada".  Second conjunct: string fields of the template go
through the shared placeholder-interpolation loop.  Third conjunct: a
placeholder whose name v is brace-free and not a key of the variables
map survives verbatim in the substituted string, provided the variable
keys are brace-free as well — without the brace-freedom restriction the
claim fails, see the counterexample, because a replaced placeholder may
overlap the occurrence of the foreign one. -/
theorem C8_transform_amended :
    (actionTransform [("name", Value.str "Ada")]
       [("template", Value.obj [("greeting", Value.str "hi \x7b\x7bname\x7d\x7d")])] =
      .ok (.obj [("result", Value.obj [("greeting", Value.str "hi Ada")])])) ∧
    (∀ (vars : List (String × Value)) (s : String),
       replaceVars vars (.str s) = .str (substString vars s)) ∧
    (∀ (vars : List (String × Value)) (v s : String),
       braceFree v.data → (∀ kv ∈ vars, braceFree kv.1.data) →
       lookupV v vars = none →
       hasOccur (patOf v) s.data = true →
       hasOccur (patOf v) (substString vars s).data = true) := by
  refine ⟨rfl, fun vars s => rfl, ?_⟩
  intro vars v s hv hbf hlk hocc
  exact (hasOccur_iff_occursIn _ _).mpr
    (substString_preserves v hv vars s hbf hlk ((hasOccur_iff_occursIn _ _).mp hocc))

/-- C8 witness: the placeholder of the brace-free name b survives the
substitution of the unrelated variable a. -/
theorem C8_transform_witness :
    hasOccur (patOf "b") (substString [("a", Value.str "Z")] "x\x7b\x7bb\x7d\x7dy").data =
      true :=
  C8_transform_amended.2.2 [("a", Value.str "Z")] "b" "x\x7b\x7bb\x7d\x7dy"
    (by decide) (by intro kv h; simp at h; subst h; decide) rfl rfl
